import Mathlib

/-!
Verification development for the Coverity findings report tool
(`coverity.py`): a context extractor (`get_file_context`) and two report
formatters (`fix_coverity_issues`, `get_issue_by_file`).

The Python code is shallowly embedded below.  The filesystem is modelled
as a function from path strings to a read outcome; Python strings are
Lean `String`s over their character lists (text mode with universal
newlines, so the only line separator in file contents is the newline
character); Python `int` is `Int`.  Python string helpers used by the
code (`readlines`, `str.strip`, `str.split` on newline, list slicing and
indexing with negative positions) are reimplemented faithfully as
structurally recursive functions so that all definitions evaluate by
kernel reduction.
-/

namespace CoverityReport

/-- Outcome of trying to read one file: absent, present but unreadable
(the wrapped message is the `str` of the raised exception), or readable
with the given full text content. -/
inductive FileRead where
  | missing : FileRead
  | readErr (msg : String) : FileRead
  | ok (content : String) : FileRead
deriving DecidableEq

/-- The filesystem as seen by the tool: each path resolves to one read
outcome.  The project root is left implicit: paths are the already
joined `os.path.join(project_root, path)` keys. -/
def FS : Type := String → FileRead

/-- Python whitespace characters relevant to `str.strip` for the ASCII
texts handled here. -/
def isPyWs (c : Char) : Bool :=
  c = ' ' || c = '\t' || c = '\n' || c = '\r' || c = '\x0b' || c = '\x0c'

/-- Python `str.strip()` on the character list: drop whitespace from
both ends. -/
def stripC (l : List Char) : List Char :=
  ((l.dropWhile isPyWs).reverse.dropWhile isPyWs).reverse

/-- Python `str.strip()`. -/
def pyStrip (s : String) : String :=
  String.mk (stripC s.data)

/-- Python `s.split(chr(10))` on the character list: always at least one
part, empty parts kept. -/
def splitNlC : List Char → List (List Char)
  | [] => [[]]
  | c :: rest =>
    if c = '\n' then [] :: splitNlC rest
    else
      match splitNlC rest with
      | [] => [[c]]
      | p :: ps => (c :: p) :: ps

/-- Python `s.split(chr(10))`. -/
def strSplitNl (s : String) : List String :=
  (splitNlC s.data).map String.mk

/-- Rebuild `readlines` output from newline-split parts: every part but
the last gets its newline back, and the empty final part (a trailing
newline, or an empty file) yields no line. -/
def rejoinC : List (List Char) → List (List Char)
  | [] => []
  | [p] => if p = [] then [] else [p]
  | p :: ps => (p ++ ['\n']) :: rejoinC ps

/-- Python `f.readlines()` on the file content: lines keep their
terminating newline; a final line without a newline is kept as is; an
empty file has no lines. -/
def pyReadlines (s : String) : List String :=
  (rejoinC (splitNlC s.data)).map String.mk

/-- Number of newline characters in a character list. -/
def countNlC : List Char → Nat
  | [] => 0
  | c :: rest => (if c = '\n' then 1 else 0) + countNlC rest

/-- Shape of every line produced by `pyReadlines`: either a newline-free
body followed by one final newline, or a nonempty newline-free final
line. -/
def GoodLineC (w : List Char) : Prop :=
  (∃ a, '\n' ∉ a ∧ w = a ++ ['\n']) ∨ ('\n' ∉ w ∧ w ≠ [])

/-- Python list indexing `l[i]`, with negative indices counting from the
end; `none` models the `IndexError`. -/
def pyIndex (l : List String) (i : Int) : Option String :=
  let j : Int := if i < 0 then (l.length : Int) + i else i
  if j < 0 then none else l.get? j.toNat

/-- Python list slicing `l[s:e]` (step 1): negative bounds count from
the end, then both are clamped to the list. -/
def pySlice {α : Type} (l : List α) (s e : Int) : List α :=
  let n : Int := (l.length : Int)
  let s' : Int := if s < 0 then max (n + s) 0 else min s n
  let e' : Int := if e < 0 then max (n + e) 0 else min e n
  (l.take e'.toNat).drop s'.toNat

/-- Python `"".join(l)`. -/
def strJoin (l : List String) : String :=
  String.mk (l.map String.data).flatten

/-- Python `chr(10).join(l)`. -/
def joinNl : List String → String
  | [] => ""
  | [x] => x
  | x :: xs => x ++ "\n" ++ joinNl xs

/-- The successful result of `get_file_context`: the dictionary built at
the end of the function. -/
structure ContextData where
  filePath : String
  targetLine : Int
  startLine : Int
  endLine : Int
  context : String
  issueLine : String
  totalLines : Nat
deriving DecidableEq

/-- `get_file_context(file_path, line_number, context_lines)`:
missing file and read failures (including the `IndexError` from the
negative-index corner of `lines[line_number - 1]`) produce the error
dictionary, otherwise the context dictionary is returned. -/
def getFileContext (fs : FS) (filePath : String) (lineNumber : Int)
    (contextLines : Int) : Except String ContextData :=
  match fs filePath with
  | .missing => .error ("File " ++ filePath ++ " not found")
  | .readErr e => .error ("Error reading file: " ++ e)
  | .ok content =>
    let lines := pyReadlines content
    let startL : Int := max (lineNumber - contextLines - 1) 0
    let endL : Int := min ((lines.length : Int)) (lineNumber + contextLines)
    if lineNumber ≤ (lines.length : Int) then
      match pyIndex lines (lineNumber - 1) with
      | none => .error "Error reading file: list index out of range"
      | some s =>
        .ok ⟨filePath, lineNumber, startL + 1, endL,
             strJoin (pySlice lines startL endL), pyStrip s, lines.length⟩
    else
      .ok ⟨filePath, lineNumber, startL + 1, endL,
           strJoin (pySlice lines startL endL), "", lines.length⟩

/-- Python `"=" * 80`. -/
def eq80 : String := String.mk (List.replicate 80 '=')

/-- Python `"-" * 80`. -/
def dash80 : String := String.mk (List.replicate 80 '-')

/-- Right align a rendered number in a 4 character column, as Python
`{n:4d}` formatting does. -/
def padLeft4 (s : String) : String :=
  String.mk (List.replicate (4 - s.length) ' ') ++ s

/-- One printed context line: the 4 character marker column, the right
aligned line number, a separator and the raw line text. -/
def mkCtxLine (startLine target : Int) (i : Nat) (line : String) : String :=
  (if startLine + (i : Int) = target then ">>> " else "    ") ++
    padLeft4 (toString (startLine + (i : Int))) ++ " | " ++ line

/-- The context printing loop shared verbatim by both report variants:
each split part is printed with its line number, except a last empty
part, which is skipped. -/
def renderLoop (st t : Int) : Nat → List String → List String
  | _, [] => []
  | i, [line] => if line = "" then [] else [mkCtxLine st t i line]
  | i, line :: rest => mkCtxLine st t i line :: renderLoop st t (i + 1) rest

/-- Render the context block body for one finding: split the window text
on newlines and print the numbered lines. -/
def renderContextLines (startLine target : Int) (ctx : String) : List String :=
  renderLoop startLine target 0 (strSplitNl ctx)

/-- One decoded Coverity finding: every field of the JSON record is
optional, mirroring the `issue.get(key, default)` accesses. -/
structure Issue where
  fileOpt : Option String := none
  lineOpt : Option Int := none
  functionOpt : Option String := none
  checkerOpt : Option String := none
  descriptionOpt : Option String := none
  severityOpt : Option String := none
  categoryOpt : Option String := none
  cweOpt : Option String := none
  recommendationOpt : Option String := none
deriving DecidableEq

/-- `issue.get(chr(39) and so on, defaults)` accessors. -/
def issueFile (i : Issue) : String := i.fileOpt.getD "Unknown"

def issueLine (i : Issue) : Int := i.lineOpt.getD 0

def issueFunction (i : Issue) : String := i.functionOpt.getD "Unknown"

def issueChecker (i : Issue) : String := i.checkerOpt.getD "Unknown"

def issueDescription (i : Issue) : String := i.descriptionOpt.getD "No description"

def issueSeverity (i : Issue) : String := i.severityOpt.getD "Unknown"

def issueCategory (i : Issue) : String := i.categoryOpt.getD "Unknown"

def issueCwe (i : Issue) : String := i.cweOpt.getD "N/A"

def issueRecommendation (i : Issue) : String :=
  i.recommendationOpt.getD "No recommendation provided"

/-- The optional decoded `summary` dictionary with its four optional
counter fields; an absent summary behaves as the record with all fields
absent, exactly as `coverity_data.get` with an empty dictionary
default. -/
structure Summary where
  totalIssues : Option Int := none
  highSeverity : Option Int := none
  mediumSeverity : Option Int := none
  lowSeverity : Option Int := none
deriving DecidableEq

/-- The decoded findings document: the ordered `issues` list (absent
behaves as empty) and the summary counters. -/
structure CoverityData where
  issues : List Issue
  summary : Summary
deriving DecidableEq

/-- Summary header of the full report. -/
def headerFull (data : CoverityData) : List String :=
  [eq80, "COVERITY ISSUES ANALYSIS", eq80, "",
   "Total Issues: " ++ toString (data.summary.totalIssues.getD (data.issues.length : Int)),
   "High Severity: " ++ toString (data.summary.highSeverity.getD 0),
   "Medium Severity: " ++ toString (data.summary.mediumSeverity.getD 0),
   "Low Severity: " ++ toString (data.summary.lowSeverity.getD 0),
   "", eq80, ""]

/-- Fixed instructional footer of the full report. -/
def footerLines : List String :=
  ["FIXING INSTRUCTIONS:", dash80, "To fix these issues:",
   "1. Review each issue\x27s description and recommendation",
   "2. Navigate to the specified file and line number",
   "3. Apply the recommended fix based on the issue type",
   "4. Test the changes to ensure no functionality is broken",
   "5. Re-run Coverity analysis to verify the fix", "",
   "Common Fixes by Issue Type:",
   "- RESOURCE_LEAK: Use context managers (with statement)",
   "- NULL_POINTER: Add null/None checks before accessing",
   "- UNINITIALIZED_VARIABLE: Initialize variables at declaration",
   "- BUFFER_OVERFLOW: Add bounds checking and validation",
   "- MEMORY_LEAK: Implement proper cleanup and garbage collection",
   "- FORMAT_STRING_VULNERABILITY: Use parameterized formatting",
   "- PATH_TRAVERSAL: Validate and sanitize file paths",
   "- SQL_INJECTION: Use parameterized queries", ""]

/-- The metadata lines of one numbered block of the full report, before
the context section. -/
def issueMetaFull (idx : Nat) (i : Issue) : List String :=
  ["ISSUE #" ++ toString idx ++ ": " ++ issueChecker i, dash80,
   "File: " ++ issueFile i,
   "Line: " ++ toString (issueLine i),
   "Function: " ++ issueFunction i,
   "Severity: " ++ issueSeverity i,
   "Category: " ++ issueCategory i,
   "CWE: " ++ issueCwe i, "",
   "Description: " ++ issueDescription i, "",
   "Recommendation: " ++ issueRecommendation i, ""]

/-- One numbered block of the full report: metadata, then either the
one line error notice or the rendered context section, then the closing
separators. -/
def issueBlockFull (fs : FS) (idx : Nat) (i : Issue) : List String :=
  issueMetaFull idx i ++
    (match getFileContext fs (issueFile i) (issueLine i) 5 with
     | .error e => ["Context: " ++ e]
     | .ok c =>
       ["CODE CONTEXT (Lines " ++ toString c.startLine ++ "-" ++
          toString c.endLine ++ "):", dash80] ++
         renderContextLines c.startLine (issueLine i) c.context ++
         [dash80, "Issue Line: " ++ c.issueLine]) ++
    ["", eq80, ""]

/-- The `response` list of `fix_coverity_issues` for decoded data with a
nonempty issues list. -/
def reportLinesFull (fs : FS) (data : CoverityData) : List String :=
  headerFull data ++
    ((List.enumFrom 1 data.issues).map (fun p => issueBlockFull fs p.1 p.2)).flatten ++
    footerLines

/-- `fix_coverity_issues` on already decoded data: the early return on
an empty issues list, otherwise the joined response lines. -/
def fixCoverityIssuesData (fs : FS) (data : CoverityData) : String :=
  if data.issues.isEmpty then "No Coverity issues found in the JSON file."
  else joinNl (reportLinesFull fs data)

/-- The `fix_coverity_issues` entry point.  Decoding the findings file
is the external collaborator `parse` (the `json.load` call); the
missing-file check, the two exception handlers and the error message
formats are the function body around it. -/
def fixCoverityIssues (parse : String → Except String CoverityData)
    (fs : FS) (jsonPath : String) : String :=
  match fs jsonPath with
  | .missing => "Error: Coverity issues file not found at " ++ jsonPath
  | .readErr e => "Error processing Coverity issues: " ++ e
  | .ok content =>
    match parse content with
    | .error e => "Error: Invalid JSON format in " ++ jsonPath ++ ": " ++ e
    | .ok data => fixCoverityIssuesData fs data

/-- The metadata lines of one numbered block of the per-file report. -/
def issueMetaFile (idx : Nat) (i : Issue) : List String :=
  ["ISSUE #" ++ toString idx ++ ": " ++ issueChecker i ++
     " (Line " ++ toString (issueLine i) ++ ")", dash80,
   "Function: " ++ issueFunction i,
   "Severity: " ++ issueSeverity i,
   "Description: " ++ issueDescription i,
   "Recommendation: " ++ issueRecommendation i, ""]

/-- One numbered block of the per-file report: when context extraction
fails nothing at all is appended for the context section. -/
def issueBlockFile (fs : FS) (filePath : String) (idx : Nat) (i : Issue) :
    List String :=
  issueMetaFile idx i ++
    (match getFileContext fs filePath (issueLine i) 3 with
     | .error _ => []
     | .ok c =>
       ("Code Context (Lines " ++ toString c.startLine ++ "-" ++
          toString c.endLine ++ "):") ::
         renderContextLines c.startLine (issueLine i) c.context) ++
    ["", eq80, ""]

/-- The findings of the document whose `file` field equals the given
path, by exact string comparison. -/
def issuesForFile (filePath : String) (data : CoverityData) : List Issue :=
  data.issues.filter (fun i => i.fileOpt == some filePath)

/-- The `response` list of `get_issue_by_file` for decoded data with a
nonempty filtered list. -/
def reportLinesFile (fs : FS) (filePath : String) (data : CoverityData) :
    List String :=
  ["COVERITY ISSUES IN " ++ filePath, eq80,
   "Total Issues in File: " ++ toString (issuesForFile filePath data).length, ""] ++
    ((List.enumFrom 1 (issuesForFile filePath data)).map
      (fun p => issueBlockFile fs filePath p.1 p.2)).flatten

/-- `get_issue_by_file` on already decoded data: the soft message when
no finding matches, otherwise the joined response lines. -/
def getIssueByFileData (fs : FS) (filePath : String) (data : CoverityData) :
    String :=
  if (issuesForFile filePath data).isEmpty then
    "No Coverity issues found in file: " ++ filePath
  else joinNl (reportLinesFile fs filePath data)

/-- The `get_issue_by_file` entry point, with its single generic
exception handler around the findings file load. -/
def getIssueByFile (parse : String → Except String CoverityData)
    (fs : FS) (filePath jsonPath : String) : String :=
  match fs jsonPath with
  | .missing => "Error: Coverity issues file not found at " ++ jsonPath
  | .readErr e => "Error: " ++ e
  | .ok content =>
    match parse content with
    | .error e => "Error: " ++ e
    | .ok data => getIssueByFileData fs filePath data

/-- First `n` characters of a string. -/
def strTake (s : String) (n : Nat) : String :=
  String.mk (s.data.take n)

/-- Whether `pre` is a leading piece of `s`. -/
def strStarts (s pre : String) : Bool :=
  pre.data.isPrefixOf s.data

/-- Python `pat in s` substring membership, on character lists. -/
def subScan (pat : List Char) : List Char → Bool
  | [] => pat.isEmpty
  | c :: t => pat.isPrefixOf (c :: t) || subScan pat t

/-- Python `pat in s` substring membership. -/
def strContains (s pat : String) : Bool :=
  subScan pat.data s.data

/-! Concrete fixtures used by counterexamples and witnesses. -/

/-- A filesystem with no files at all. -/
def fsNone : FS := fun _ => .missing

/-- A findings document with an empty issues list and no summary. -/
def dataEmpty : CoverityData := ⟨[], ⟨none, none, none, none⟩⟩

/-- A filesystem holding one two line file `a.py` with a trailing
newline. -/
def fsAB : FS := fun p => if p = "a.py" then .ok "a\nb\n" else .missing

/-- A filesystem holding one one line file `s.py` whose line has leading
whitespace. -/
def fsLead : FS := fun p => if p = "s.py" then .ok "  x\n" else .missing

/-- A filesystem with the one line file `w.py` and nothing else. -/
def fsW1 : FS := fun p => if p = "w.py" then .ok "x\n" else .missing

/-- A filesystem agreeing with `fsW1` on `w.py` but different
elsewhere. -/
def fsW2 : FS := fun p => if p = "w.py" then .ok "x\n" else .readErr "boom"

/-- The finding of the one-finding fixture document. -/
def issueW : Issue :=
  ⟨some "w.py", some 1, none, none, none, none, none, none, none⟩

/-- A findings document with the one finding `issueW`. -/
def dataW : CoverityData := ⟨[issueW], ⟨none, none, none, none⟩⟩

/-- A finding in a different file, for the filter witness. -/
def issueZ : Issue :=
  ⟨some "z.py", some 2, none, none, none, none, none, none, none⟩

/-- A second finding in `w.py`, for the filter witness. -/
def issueW2 : Issue :=
  ⟨some "w.py", some 5, none, some "RESOURCE_LEAK", none, none, none, none, none⟩

/-- A findings document mixing findings of two files. -/
def dataC8 : CoverityData :=
  ⟨[issueW, issueZ, issueW2], ⟨none, none, none, none⟩⟩

/-- A parser that always fails, for the malformed-input witness. -/
def parseBad : String → Except String CoverityData := fun _ => .error "bad"

/-- A filesystem whose every path holds an unparsable findings file. -/
def fsJunk : FS := fun _ => .ok "notjson"

/-- Modelled from the spec wording of C2 only, for comparison with the
code: the line text with only trailing whitespace or newline removed. -/
def rstripSpec (s : String) : String :=
  String.mk (s.data.reverse.dropWhile isPyWs).reverse

/-- The `issue_line` field of an extraction result, `none` on error. -/
def issueLineOf : Except String ContextData → Option String
  | .error _ => none
  | .ok c => some c.issueLine

/-! General helper lemmas about the embedded string operations. -/

theorem strData_append (a b : String) : (a ++ b).data = a.data ++ b.data := rfl

theorem strTake_app3 (m a b c : String) (hm : m.data.length = 4) :
    strTake (m ++ a ++ b ++ c) 4 = m := by
  show String.mk (List.take 4 (((m.data ++ a.data) ++ b.data) ++ c.data)) = m
  rw [List.append_assoc, List.append_assoc,
    List.take_append_of_le_length (by omega), ← hm, List.take_length]

theorem mkCtxLine_take4 (st t : Int) (i : Nat) (line : String) :
    strTake (mkCtxLine st t i line) 4 =
      if st + (i : Int) = t then ">>> " else "    " := by
  unfold mkCtxLine
  by_cases h : st + (i : Int) = t
  · rw [if_pos h, strTake_app3]; rfl
  · rw [if_neg h, strTake_app3]; rfl

theorem renderLoop_mem (st t : Int) :
    ∀ (l : List String) (j : Nat) (s : String), s ∈ renderLoop st t j l →
      ∃ k line, l.get? k = some line ∧ (k + 1 < l.length ∨ line ≠ "") ∧
        s = mkCtxLine st t (j + k) line := by
  intro l
  induction l with
  | nil => intro j s h; simp [renderLoop] at h
  | cons a rest ih =>
    intro j s h
    cases rest with
    | nil =>
      by_cases ha : a = ""
      · simp [renderLoop, ha] at h
      · rw [show renderLoop st t j [a] =
            if a = "" then [] else [mkCtxLine st t j a] from rfl, if_neg ha] at h
        rw [List.mem_singleton] at h
        exact ⟨0, a, rfl, Or.inr ha, by simpa using h⟩
    | cons b rest2 =>
      rw [show renderLoop st t j (a :: b :: rest2) =
          mkCtxLine st t j a :: renderLoop st t (j + 1) (b :: rest2) from rfl,
        List.mem_cons] at h
      rcases h with h | h
      · exact ⟨0, a, rfl, Or.inl (by simp), by simpa using h⟩
      · obtain ⟨k, line, hget, hcond, hval⟩ := ih (j + 1) s h
        refine ⟨k + 1, line, by simpa using hget, ?_, ?_⟩
        · rcases hcond with hlt | hne
          · exact Or.inl (by simp at hlt ⊢; omega)
          · exact Or.inr hne
        · rw [hval]; congr 1; omega

theorem renderLoop_closed (st t : Int) :
    ∀ (l : List String) (j : Nat),
      renderLoop st t j l =
        ((if l.getLast? = some "" then l.dropLast else l).enumFrom j).map
          (fun p => mkCtxLine st t p.1 p.2) := by
  intro l
  induction l with
  | nil => intro j; simp [renderLoop]
  | cons a rest ih =>
    intro j
    cases rest with
    | nil =>
      rw [show renderLoop st t j [a] =
          if a = "" then [] else [mkCtxLine st t j a] from rfl]
      by_cases ha : a = "" <;> simp [ha, List.enumFrom]
    | cons b rest2 =>
      rw [show renderLoop st t j (a :: b :: rest2) =
          mkCtxLine st t j a :: renderLoop st t (j + 1) (b :: rest2) from rfl,
        ih (j + 1), List.getLast?_cons_cons]
      by_cases h : (b :: rest2).getLast? = some ""
      · rw [if_pos h, if_pos h,
          show (a :: b :: rest2).dropLast = a :: (b :: rest2).dropLast from rfl]
        rfl
      · rw [if_neg h, if_neg h]
        rfl

/-! Claim theorems. -/

/-- C6 (confirmed): in a rendered context block, the printed lines are
exactly the newline-split parts of the window text in order, each with
its line number, except that a last empty part (the trailing-newline
split artifact) is dropped; interior empty parts are all printed. -/
theorem c6_skip_only_trailing_split_artifact (st t : Int) (ctx : String) :
    renderContextLines st t ctx =
      ((if (strSplitNl ctx).getLast? = some "" then (strSplitNl ctx).dropLast
        else strSplitNl ctx).enum.map fun p => mkCtxLine st t p.1 p.2) := by
  rw [renderContextLines, renderLoop_closed]
  rfl

/-- C4 (confirmed): every line printed by the shared context rendering
loop is the render of some split part `i`, and its 4 character marker
column is `>>> ` exactly when its printed line number (`startLine + i`)
equals the finding's line, and four spaces otherwise. -/
theorem c4_marker_iff_line_matches (st t : Int) (ctx : String) (s : String)
    (hs : s ∈ renderContextLines st t ctx) :
    ∃ i line, (strSplitNl ctx).get? i = some line ∧ s = mkCtxLine st t i line ∧
      (strTake s 4 = ">>> " ↔ st + (i : Int) = t) ∧
      (strTake s 4 = "    " ↔ ¬ st + (i : Int) = t) := by
  obtain ⟨k, line, hget, _, hval⟩ :=
    renderLoop_mem st t (strSplitNl ctx) 0 s hs
  rw [Nat.zero_add] at hval
  refine ⟨k, line, hget, hval, ?_, ?_⟩ <;> rw [hval, mkCtxLine_take4] <;>
    by_cases h : st + (k : Int) = t <;> simp [h]

/-- C4 witness: the rendering of the one line window `a` at line 1 with
the finding on line 1. -/
theorem c4_witness :
    (mkCtxLine 1 1 0 "a") ∈ renderContextLines 1 1 "a" ∧
    (∃ i line, (strSplitNl "a").get? i = some line ∧
      mkCtxLine 1 1 0 "a" = mkCtxLine 1 1 i line ∧
      (strTake (mkCtxLine 1 1 0 "a") 4 = ">>> " ↔ (1 : Int) + (i : Int) = 1) ∧
      (strTake (mkCtxLine 1 1 0 "a") 4 = "    " ↔ ¬ (1 : Int) + (i : Int) = 1)) :=
  ⟨by decide, c4_marker_iff_line_matches 1 1 "a" (mkCtxLine 1 1 0 "a") (by decide)⟩

/-- C1 (amended): for an empty issues list the full-report formatter
returns the fixed message `No Coverity issues found in the JSON file.`,
which contains no numbered issue block and does not contain
`Total Issues: 0`. -/
theorem c1_empty_issues_message (fs : FS) (data : CoverityData)
    (h : data.issues = []) :
    fixCoverityIssuesData fs data = "No Coverity issues found in the JSON file." ∧
    strContains (fixCoverityIssuesData fs data) "Total Issues: 0" = false ∧
    strContains (fixCoverityIssuesData fs data) "ISSUE #" = false := by
  have hmsg : fixCoverityIssuesData fs data =
      "No Coverity issues found in the JSON file." := by
    unfold fixCoverityIssuesData
    rw [h]
    rfl
  refine ⟨hmsg, ?_, ?_⟩ <;> rw [hmsg] <;> decide

/-- C1 counterexample: on an empty findings collection the report is the
fixed message, whose text does not contain `Total Issues: 0`, against
the claim. -/
theorem c1_counterexample :
    fixCoverityIssuesData fsNone dataEmpty =
      "No Coverity issues found in the JSON file." ∧
    strContains (fixCoverityIssuesData fsNone dataEmpty) "Total Issues: 0"
      = false := by
  exact ⟨rfl, by decide⟩

/-! Characterization of the extractor on a readable file. -/

theorem getFileContext_ok_unfold (fs : FS) (p content : String) (t r : Int)
    (hfs : fs p = .ok content) :
    getFileContext fs p t r =
      (if t ≤ ((pyReadlines content).length : Int) then
         match pyIndex (pyReadlines content) (t - 1) with
         | none => .error "Error reading file: list index out of range"
         | some s =>
           .ok ⟨p, t, max (t - r - 1) 0 + 1,
                min ((pyReadlines content).length : Int) (t + r),
                strJoin (pySlice (pyReadlines content) (max (t - r - 1) 0)
                  (min ((pyReadlines content).length : Int) (t + r))),
                pyStrip s, (pyReadlines content).length⟩
       else
         .ok ⟨p, t, max (t - r - 1) 0 + 1,
              min ((pyReadlines content).length : Int) (t + r),
              strJoin (pySlice (pyReadlines content) (max (t - r - 1) 0)
                (min ((pyReadlines content).length : Int) (t + r))),
              "", (pyReadlines content).length⟩) := by
  unfold getFileContext
  rw [hfs]

theorem max_sub_one_add_one (x : Int) : max (x - 1) 0 + 1 = max 1 x := by
  rcases le_total x 1 with h | h
  · rw [max_eq_right (by omega : x - 1 ≤ 0), max_eq_left h]
    omega
  · rw [max_eq_left (by omega : (0 : Int) ≤ x - 1), max_eq_right h]
    omega

theorem pySlice_eq_nil {α : Type} (l : List α) (s e : Int) (hs : 0 ≤ s)
    (he : 0 ≤ e) (hes : e ≤ s) : pySlice l s e = [] := by
  simp only [pySlice, if_neg (not_lt.mpr hs), if_neg (not_lt.mpr he)]
  apply List.drop_eq_nil_of_le
  rw [List.length_take]
  exact le_trans (min_le_left _ _)
    (Int.toNat_le_toNat (min_le_min_right _ hes))

theorem pyIndex_pos_some (l : List String) (i : Int) (h0 : 0 ≤ i)
    (h1 : i < (l.length : Int)) : ∃ s, pyIndex l i = some s := by
  have hni : ¬ i < 0 := by omega
  simp only [pyIndex, if_neg hni]
  have hlt : i.toNat < l.length := by omega
  exact ⟨l.get ⟨i.toNat, hlt⟩, List.get?_eq_get hlt⟩

theorem pyIndex_neg_some (l : List String) (i : Int) (hneg : i < 0)
    (hge : 0 ≤ (l.length : Int) + i) : ∃ s, pyIndex l i = some s := by
  simp only [pyIndex, if_pos hneg, if_neg (not_lt.mpr hge)]
  have hlt : ((l.length : Int) + i).toNat < l.length := by omega
  exact ⟨l.get ⟨_, hlt⟩, List.get?_eq_get hlt⟩

theorem pyIndex_none_iff (l : List String) (i : Int) (hi : i < (l.length : Int)) :
    pyIndex l i = none ↔ (l.length : Int) + i < 0 := by
  constructor
  · intro h
    by_contra hge
    rcases lt_or_le i 0 with hneg | hpos
    · obtain ⟨s, hs⟩ := pyIndex_neg_some l i hneg (by omega)
      rw [h] at hs
      exact Option.noConfusion hs
    · obtain ⟨s, hs⟩ := pyIndex_pos_some l i hpos hi
      rw [h] at hs
      exact Option.noConfusion hs
  · intro h
    have hi0 : i < 0 := by omega
    simp only [pyIndex, if_pos hi0, if_pos h]

/-- C3 (amended): for a readable file, a target line `t ≥ 1` and a
radius `r ≥ 0`, extraction succeeds, the window bounds are
`startLine = max 1 (t - r)` and `endLine = min N (t + r)` independently
of the content, and an inverted window (`endLine < startLine`) carries
empty window text and an empty issue line. -/
theorem c3_window_bounds (fs : FS) (p content : String) (t r : Int)
    (hfs : fs p = .ok content) (ht : 1 ≤ t) (hr : 0 ≤ r) :
    ∃ c, getFileContext fs p t r = .ok c ∧
      c.startLine = max 1 (t - r) ∧
      c.endLine = min ((pyReadlines content).length : Int) (t + r) ∧
      (c.endLine < c.startLine → c.context = "" ∧ c.issueLine = "") := by
  rw [getFileContext_ok_unfold fs p content t r hfs]
  by_cases hle : t ≤ ((pyReadlines content).length : Int)
  · rw [if_pos hle]
    obtain ⟨s, hs⟩ :=
      pyIndex_pos_some (pyReadlines content) (t - 1) (by omega) (by omega)
    rw [hs]
    refine ⟨_, rfl, max_sub_one_add_one _, rfl, ?_⟩
    intro hlt
    exfalso
    dsimp only at hlt
    omega
  · rw [if_neg hle]
    refine ⟨_, rfl, max_sub_one_add_one _, rfl, ?_⟩
    intro hlt
    dsimp only at hlt ⊢
    refine ⟨?_, rfl⟩
    rw [pySlice_eq_nil _ _ _ (le_max_right _ _) (by omega) (by omega)]
    rfl

/-- C3 counterexample: on the two line file `a.py`, target 0 with
radius 0 yields an inverted window whose issue line is the last file
line, not the empty string, and target 1 with the negative radius -2
likewise; the claim fails for targets below 1 and negative radii. -/
theorem c3_counterexample :
    getFileContext fsAB "a.py" 0 0 = .ok ⟨"a.py", 0, 1, 0, "", "b", 2⟩ ∧
    ((0 : Int) < 1 ∧ ("b" : String) ≠ "") ∧
    getFileContext fsAB "a.py" 1 (-2) = .ok ⟨"a.py", 1, 3, -1, "", "a", 2⟩ ∧
    ((-1 : Int) < 3 ∧ ("a" : String) ≠ "") := by
  refine ⟨rfl, ⟨by decide, by decide⟩, rfl, by decide, by decide⟩

/-- C3 witness: the amended claim evaluated on the two line file with
target 3 and radius 5. -/
theorem c3_witness :
    (fsAB "a.py" = .ok "a\nb\n" ∧ (1 : Int) ≤ 3 ∧ (0 : Int) ≤ 5) ∧
    (∃ c, getFileContext fsAB "a.py" 3 5 = .ok c ∧
      c.startLine = max 1 (3 - 5) ∧
      c.endLine = min ((pyReadlines "a\nb\n").length : Int) (3 + 5) ∧
      (c.endLine < c.startLine → c.context = "" ∧ c.issueLine = "")) :=
  ⟨⟨rfl, by decide, by decide⟩,
    c3_window_bounds fsAB "a.py" "a\nb\n" 3 5 rfl (by decide) (by decide)⟩

/-- C2 (amended): for a readable file, the extracted `issue_line` is the
Python-indexed line `lines[t - 1]` (negative indices counting from the
end of the file) stripped of leading and trailing whitespace whenever
`t ≤ totalLines` and that index is in range; it is `""` whenever
`t > totalLines`; and when `t < 1 - totalLines` the extractor returns
the index-out-of-range read error instead of a context. -/
theorem c2_issue_line_text (fs : FS) (p content : String) (t r : Int)
    (hfs : fs p = .ok content) :
    (∀ c, getFileContext fs p t r = .ok c →
      (((pyReadlines content).length : Int) < t → c.issueLine = "") ∧
      (t ≤ ((pyReadlines content).length : Int) →
        ∃ s, pyIndex (pyReadlines content) (t - 1) = some s ∧
          c.issueLine = pyStrip s)) ∧
    (∀ e, getFileContext fs p t r = .error e →
      t < 1 - ((pyReadlines content).length : Int) ∧
      e = "Error reading file: list index out of range") ∧
    (t < 1 - ((pyReadlines content).length : Int) →
      getFileContext fs p t r =
        .error "Error reading file: list index out of range") := by
  rw [getFileContext_ok_unfold fs p content t r hfs]
  by_cases hle : t ≤ ((pyReadlines content).length : Int)
  · rw [if_pos hle]
    rcases hidx : pyIndex (pyReadlines content) (t - 1) with _ | s
    · have hrange : ((pyReadlines content).length : Int) + (t - 1) < 0 :=
        (pyIndex_none_iff _ _ (by omega)).mp hidx
      refine ⟨?_, ?_, ?_⟩
      · intro c hc
        exact absurd hc (by simp)
      · intro e he
        refine ⟨by omega, ?_⟩
        simpa using he.symm
      · intro _
        rfl
    · refine ⟨?_, ?_, ?_⟩
      · intro c hc
        have hc2 : c = ⟨p, t, max (t - r - 1) 0 + 1,
            min ((pyReadlines content).length : Int) (t + r),
            strJoin (pySlice (pyReadlines content) (max (t - r - 1) 0)
              (min ((pyReadlines content).length : Int) (t + r))),
            pyStrip s, (pyReadlines content).length⟩ := by
          simpa using hc.symm
        exact ⟨fun hgt => absurd hle (by omega),
          fun _ => ⟨s, rfl, by rw [hc2]⟩⟩
      · intro e he
        exact absurd he (by simp)
      · intro hlow
        exfalso
        have : pyIndex (pyReadlines content) (t - 1) = none :=
          (pyIndex_none_iff _ _ (by omega)).mpr (by omega)
        rw [hidx] at this
        exact Option.noConfusion this
  · rw [if_neg hle]
    refine ⟨?_, ?_, ?_⟩
    · intro c hc
      have hc2 : c = ⟨p, t, max (t - r - 1) 0 + 1,
          min ((pyReadlines content).length : Int) (t + r),
          strJoin (pySlice (pyReadlines content) (max (t - r - 1) 0)
            (min ((pyReadlines content).length : Int) (t + r))),
          "", (pyReadlines content).length⟩ := by
        simpa using hc.symm
      exact ⟨fun _ => by rw [hc2], fun hcon => absurd hcon hle⟩
    · intro e he
      exact absurd he (by simp)
    · intro hlow
      exfalso
      omega

/-- C2 counterexample: `str.strip` also removes leading whitespace
(file `  x` gives issue line `x`, not `  x`), and a target below 1
selects a line from the end of the file by Python negative indexing
(target 0 on the two line file gives `b`, not `""`); the claim fails on
both points. -/
theorem c2_counterexample :
    issueLineOf (getFileContext fsLead "s.py" 1 5) = some "x" ∧
    rstripSpec "  x\n" = "  x" ∧ ("x" : String) ≠ ("  x" : String) ∧
    issueLineOf (getFileContext fsAB "a.py" 0 0) = some "b" ∧
    ("b" : String) ≠ ("" : String) := by
  refine ⟨rfl, rfl, by decide, rfl, by decide⟩

/-- C2 witness: the amended claim evaluated on the two line file at
target 2 and radius 5. -/
theorem c2_witness :
    (fsAB "a.py" = .ok "a\nb\n") ∧
    ((∀ c, getFileContext fsAB "a.py" 2 5 = .ok c →
      (((pyReadlines "a\nb\n").length : Int) < 2 → c.issueLine = "") ∧
      ((2 : Int) ≤ ((pyReadlines "a\nb\n").length : Int) →
        ∃ s, pyIndex (pyReadlines "a\nb\n") (2 - 1) = some s ∧
          c.issueLine = pyStrip s)) ∧
    (∀ e, getFileContext fsAB "a.py" 2 5 = .error e →
      (2 : Int) < 1 - ((pyReadlines "a\nb\n").length : Int) ∧
      e = "Error reading file: list index out of range") ∧
    ((2 : Int) < 1 - ((pyReadlines "a\nb\n").length : Int) →
      getFileContext fsAB "a.py" 2 5 =
        .error "Error reading file: list index out of range")) :=
  ⟨rfl, c2_issue_line_text fsAB "a.py" "a\nb\n" 2 5 rfl⟩

/-! Noninterference of the full report in the filesystem outside the
referenced files, and the error prefix of both entry points. -/

theorem getFileContext_congr (fs1 fs2 : FS) (p : String) (t r : Int)
    (h : fs1 p = fs2 p) :
    getFileContext fs1 p t r = getFileContext fs2 p t r := by
  unfold getFileContext
  rw [h]

theorem issueBlockFull_congr (fs1 fs2 : FS) (idx : Nat) (i : Issue)
    (h : fs1 (issueFile i) = fs2 (issueFile i)) :
    issueBlockFull fs1 idx i = issueBlockFull fs2 idx i := by
  unfold issueBlockFull
  rw [getFileContext_congr fs1 fs2 _ _ _ h]

theorem blocksFull_congr (fs1 fs2 : FS) :
    ∀ (l : List Issue) (k : Nat),
      (∀ i ∈ l, fs1 (issueFile i) = fs2 (issueFile i)) →
      (List.enumFrom k l).map (fun p => issueBlockFull fs1 p.1 p.2) =
        (List.enumFrom k l).map (fun p => issueBlockFull fs2 p.1 p.2) := by
  intro l
  induction l with
  | nil => intro k _; rfl
  | cons a rest ih =>
    intro k h
    show issueBlockFull fs1 k a :: _ = issueBlockFull fs2 k a :: _
    rw [issueBlockFull_congr fs1 fs2 k a (h a (by simp)),
      ih (k + 1) (fun i hi => h i (by simp [hi]))]

/-- C9 (confirmed): the full report is a pure function of the findings
and of the filesystem restricted to the referenced files; two
invocations with identical findings and unchanged referenced file
contents produce identical report strings even if the rest of the
filesystem changed between them. -/
theorem c9_report_deterministic (fs1 fs2 : FS) (data : CoverityData)
    (h : ∀ i ∈ data.issues, fs1 (issueFile i) = fs2 (issueFile i)) :
    fixCoverityIssuesData fs1 data = fixCoverityIssuesData fs2 data := by
  unfold fixCoverityIssuesData reportLinesFull
  by_cases he : data.issues.isEmpty
  · rw [if_pos he, if_pos he]
  · rw [if_neg he, if_neg he, blocksFull_congr fs1 fs2 data.issues 1 h]

/-- C9 witness: two filesystems that agree on the one referenced file
but differ elsewhere give the identical report. -/
theorem c9_witness :
    (∀ i ∈ dataW.issues, fsW1 (issueFile i) = fsW2 (issueFile i)) ∧
    fixCoverityIssuesData fsW1 dataW = fixCoverityIssuesData fsW2 dataW := by
  have h : ∀ i ∈ dataW.issues, fsW1 (issueFile i) = fsW2 (issueFile i) := by
    decide
  exact ⟨h, c9_report_deterministic fsW1 fsW2 dataW h⟩

theorem strStarts_append_of (lit u pre : String)
    (h : strStarts lit pre = true) : strStarts (lit ++ u) pre = true :=
  List.isPrefixOf_iff_prefix.mpr
    ((List.isPrefixOf_iff_prefix.mp h).trans (List.prefix_append _ _))

/-- C10 (confirmed): each failure mode of the two entry points (missing
findings file, unreadable findings file, malformed findings document)
returns a string starting with `Error`; none escapes as an exception
(the embedded functions are total by construction). -/
theorem c10_failures_return_error_strings
    (parse : String → Except String CoverityData) (fs : FS)
    (jsonPath fp : String) :
    (fs jsonPath = .missing →
      strStarts (fixCoverityIssues parse fs jsonPath) "Error" = true ∧
      strStarts (getIssueByFile parse fs fp jsonPath) "Error" = true) ∧
    (∀ e, fs jsonPath = .readErr e →
      strStarts (fixCoverityIssues parse fs jsonPath) "Error" = true ∧
      strStarts (getIssueByFile parse fs fp jsonPath) "Error" = true) ∧
    (∀ c e, fs jsonPath = .ok c → parse c = .error e →
      strStarts (fixCoverityIssues parse fs jsonPath) "Error" = true ∧
      strStarts (getIssueByFile parse fs fp jsonPath) "Error" = true) := by
  refine ⟨?_, ?_, ?_⟩
  · intro h
    unfold fixCoverityIssues getIssueByFile
    rw [h]
    exact ⟨strStarts_append_of _ _ _ (by decide),
      strStarts_append_of _ _ _ (by decide)⟩
  · intro e h
    unfold fixCoverityIssues getIssueByFile
    rw [h]
    exact ⟨strStarts_append_of _ _ _ (by decide),
      strStarts_append_of _ _ _ (by decide)⟩
  · intro c e hc hp
    unfold fixCoverityIssues getIssueByFile
    rw [hc]
    dsimp only
    rw [hp]
    exact ⟨strStarts_append_of _ _ _
        (strStarts_append_of _ _ _ (strStarts_append_of _ _ _ (by decide))),
      strStarts_append_of _ _ _ (by decide)⟩

/-! Structure of the newline split of a joined context window, for C5. -/

theorem countNlC_append (a b : List Char) :
    countNlC (a ++ b) = countNlC a + countNlC b := by
  induction a with
  | nil => simp [countNlC]
  | cons c rest ih => simp [countNlC, ih]; omega

theorem countNlC_eq_zero (w : List Char) (h : '\n' ∉ w) : countNlC w = 0 := by
  induction w with
  | nil => rfl
  | cons c rest ih =>
    rw [List.mem_cons, not_or] at h
    simp [countNlC, Ne.symm h.1, ih h.2]

theorem countNlC_flatten (l : List (List Char)) :
    countNlC l.flatten = (l.map countNlC).sum := by
  induction l with
  | nil => rfl
  | cons a rest ih => simp [List.flatten_cons, countNlC_append, ih]

theorem splitNlC_ne_nil (l : List Char) : splitNlC l ≠ [] := by
  cases l with
  | nil => simp [splitNlC]
  | cons c rest =>
    by_cases h : c = '\n'
    · simp [splitNlC, h]
    · rcases hsp : splitNlC rest with _ | ⟨p, ps⟩ <;> simp [splitNlC, h, hsp]

theorem splitNlC_length (l : List Char) :
    (splitNlC l).length = countNlC l + 1 := by
  induction l with
  | nil => rfl
  | cons c rest ih =>
    by_cases h : c = '\n'
    · simp [splitNlC, countNlC, h, ih]
      omega
    · rcases hsp : splitNlC rest with _ | ⟨p, ps⟩
      · exact absurd hsp (splitNlC_ne_nil rest)
      · rw [hsp] at ih
        simp [splitNlC, countNlC, h, hsp]
        simp at ih
        omega

theorem splitNlC_append_nl (a b : List Char) (h : '\n' ∉ a) :
    splitNlC (a ++ '\n' :: b) = a :: splitNlC b := by
  induction a with
  | nil => simp [splitNlC]
  | cons c a2 ih =>
    rw [List.mem_cons, not_or] at h
    rw [List.cons_append, show splitNlC (c :: (a2 ++ '\n' :: b)) =
        if c = '\n' then [] :: splitNlC (a2 ++ '\n' :: b)
        else match splitNlC (a2 ++ '\n' :: b) with
          | [] => [[c]]
          | p :: ps => (c :: p) :: ps from rfl,
      if_neg (fun hc => h.1 hc.symm), ih h.2]

theorem splitNlC_all_term (ws : List (List Char))
    (h : ∀ w ∈ ws, ∃ a, '\n' ∉ a ∧ w = a ++ ['\n']) :
    splitNlC ws.flatten = ws.map List.dropLast ++ [[]] := by
  induction ws with
  | nil => rfl
  | cons w rest ih =>
    obtain ⟨a, ha, hw⟩ := h w (by simp)
    rw [List.flatten_cons, hw, List.append_assoc, List.singleton_append,
      splitNlC_append_nl a _ ha, ih (fun x hx => h x (by simp [hx]))]
    simp [hw, List.dropLast_concat]

theorem rejoinC_good (ps : List (List Char)) (h : ∀ p ∈ ps, '\n' ∉ p) :
    ∀ w ∈ rejoinC ps, GoodLineC w := by
  induction ps with
  | nil => intro w hw; simp [rejoinC] at hw
  | cons p rest ih =>
    intro w hw
    cases rest with
    | nil =>
      by_cases hp : p = []
      · simp [rejoinC, hp] at hw
      · rw [show rejoinC [p] = if p = [] then [] else [p] from rfl,
          if_neg hp, List.mem_singleton] at hw
        exact Or.inr ⟨hw ▸ h p (by simp), hw ▸ hp⟩
    | cons q rest2 =>
      rw [show rejoinC (p :: q :: rest2) =
          (p ++ ['\n']) :: rejoinC (q :: rest2) from rfl, List.mem_cons] at hw
      rcases hw with rfl | hw
      · exact Or.inl ⟨p, h p (by simp), rfl⟩
      · exact ih (fun x hx => h x (by simp [hx])) w hw

theorem splitNlC_no_nl (l : List Char) : ∀ p ∈ splitNlC l, '\n' ∉ p := by
  induction l with
  | nil => intro p hp; simp [splitNlC] at hp; simp [hp]
  | cons c rest ih =>
    intro p hp
    by_cases h : c = '\n'
    · rw [show splitNlC (c :: rest) = if c = '\n' then [] :: splitNlC rest
          else match splitNlC rest with
            | [] => [[c]]
            | p :: ps => (c :: p) :: ps from rfl, if_pos h,
        List.mem_cons] at hp
      rcases hp with rfl | hp
      · simp
      · exact ih p hp
    · rcases hsp : splitNlC rest with _ | ⟨q, qs⟩
      · exact absurd hsp (splitNlC_ne_nil rest)
      · rw [show splitNlC (c :: rest) = if c = '\n' then [] :: splitNlC rest
            else match splitNlC rest with
              | [] => [[c]]
              | p :: ps => (c :: p) :: ps from rfl, if_neg h, hsp,
          List.mem_cons] at hp
        rcases hp with rfl | hp
        · have hq : '\n' ∉ q := ih q (by rw [hsp]; simp)
          simp [h, hq]
          exact fun hc => absurd hc.symm h
        · exact ih p (by rw [hsp]; exact List.mem_cons_of_mem _ hp)

theorem pyReadlines_good (content : String) :
    ∀ line ∈ pyReadlines content, GoodLineC line.data := by
  intro line hl
  rw [pyReadlines, List.mem_map] at hl
  obtain ⟨w, hw, rfl⟩ := hl
  exact rejoinC_good _ (splitNlC_no_nl content.data) w hw

theorem GoodLineC_count_le (w : List Char) (h : GoodLineC w) :
    countNlC w ≤ 1 := by
  rcases h with ⟨a, ha, rfl⟩ | ⟨hn, _⟩
  · rw [countNlC_append, countNlC_eq_zero a ha]
    simp [countNlC]
  · rw [countNlC_eq_zero w hn]
    omega

theorem GoodLineC_term_of_count (w : List Char) (h : GoodLineC w)
    (hc : countNlC w = 1) : ∃ a, '\n' ∉ a ∧ w = a ++ ['\n'] := by
  rcases h with ht | ⟨hn, _⟩
  · exact ht
  · rw [countNlC_eq_zero w hn] at hc
    exact absurd hc (by omega)

theorem flatten_count_le (ws : List (List Char))
    (h : ∀ w ∈ ws, GoodLineC w) : countNlC ws.flatten ≤ ws.length := by
  induction ws with
  | nil => simp [countNlC]
  | cons w rest ih =>
    rw [List.flatten_cons, countNlC_append]
    have h1 := GoodLineC_count_le w (h w (by simp))
    have h2 := ih (fun x hx => h x (by simp [hx]))
    simp only [List.length_cons]
    omega

theorem all_term_of_count (ws : List (List Char))
    (h : ∀ w ∈ ws, GoodLineC w) (heq : countNlC ws.flatten = ws.length) :
    ∀ w ∈ ws, ∃ a, '\n' ∉ a ∧ w = a ++ ['\n'] := by
  induction ws with
  | nil => intro w hw; simp at hw
  | cons w rest ih =>
    rw [List.flatten_cons, countNlC_append, List.length_cons] at heq
    have h1 := GoodLineC_count_le w (h w (by simp))
    have h2 := flatten_count_le rest (fun x hx => h x (by simp [hx]))
    intro x hx
    rcases List.mem_cons.mp hx with rfl | hx2
    · exact GoodLineC_term_of_count x (h x (by simp)) (by omega)
    · exact ih (fun y hy => h y (by simp [hy])) (by omega) x hx2

theorem window_parts_bound (ws : List (List Char))
    (h : ∀ w ∈ ws, GoodLineC w) :
    (splitNlC ws.flatten).length ≤ ws.length + 1 ∧
    ((splitNlC ws.flatten).length = ws.length + 1 →
      (splitNlC ws.flatten).getLast? = some []) := by
  constructor
  · rw [splitNlC_length]
    have := flatten_count_le ws h
    omega
  · intro heq
    rw [splitNlC_length] at heq
    have hall := all_term_of_count ws h (by omega)
    rw [splitNlC_all_term ws hall]
    exact List.getLast?_concat _

theorem pySlice_subset {α : Type} (l : List α) (s e : Int) :
    ∀ x ∈ pySlice l s e, x ∈ l := by
  intro x hx
  simp only [pySlice] at hx
  exact List.mem_of_mem_take (List.mem_of_mem_drop hx)

theorem pySlice_length_le {α : Type} (l : List α) (s e : Int) (hs : 0 ≤ s) :
    (pySlice l s e).length + (min s ((l.length : Int))).toNat ≤ l.length := by
  simp only [pySlice, if_neg (not_lt.mpr hs)]
  by_cases he : e < 0
  · rw [if_pos he, List.length_drop, List.length_take]
    omega
  · rw [if_neg he, List.length_drop, List.length_take]
    omega

/-- C5 (confirmed): for a finding whose line number exceeds the file
length, extraction succeeds with an empty issue line, and no rendered
context line of its block carries the `>>> ` marker, because every
printed line number is at most the file length and hence below the
target. -/
theorem c5_no_marker_beyond_eof (fs : FS) (p content : String) (t r : Int)
    (hfs : fs p = .ok content)
    (ht : ((pyReadlines content).length : Int) < t) :
    ∃ c, getFileContext fs p t r = .ok c ∧ c.issueLine = "" ∧
      ∀ s ∈ renderContextLines c.startLine t c.context,
        strTake s 4 ≠ ">>> " := by
  rw [getFileContext_ok_unfold fs p content t r hfs, if_neg (by omega)]
  refine ⟨_, rfl, rfl, ?_⟩
  intro s hs
  dsimp only at hs
  obtain ⟨k, line, hget, hcond, hval⟩ :=
    renderLoop_mem (max (t - r - 1) 0 + 1) t
      (strSplitNl (strJoin (pySlice (pyReadlines content) (max (t - r - 1) 0)
        (min ((pyReadlines content).length : Int) (t + r))))) 0 s hs
  have hparts := window_parts_bound
    ((pySlice (pyReadlines content) (max (t - r - 1) 0)
      (min ((pyReadlines content).length : Int) (t + r))).map String.data)
    (by
      intro w hw
      rw [List.mem_map] at hw
      obtain ⟨line2, hl2, rfl⟩ := hw
      exact pyReadlines_good content line2 (pySlice_subset _ _ _ _ hl2))
  have hsplit : strSplitNl (strJoin (pySlice (pyReadlines content)
      (max (t - r - 1) 0)
      (min ((pyReadlines content).length : Int) (t + r)))) =
      (splitNlC ((pySlice (pyReadlines content) (max (t - r - 1) 0)
        (min ((pyReadlines content).length : Int) (t + r))).map
          String.data).flatten).map String.mk := rfl
  have hk : k < (strSplitNl (strJoin (pySlice (pyReadlines content)
      (max (t - r - 1) 0)
      (min ((pyReadlines content).length : Int) (t + r))))).length := by
    rcases List.get?_eq_some.mp hget with ⟨hk, _⟩
    exact hk
  rw [hsplit, List.length_map] at hk
  rw [List.length_map] at hparts
  have hslice := pySlice_length_le (pyReadlines content) (max (t - r - 1) 0)
    (min ((pyReadlines content).length : Int) (t + r)) (le_max_right _ _)
  rcases lt_or_ge k (pySlice (pyReadlines content) (max (t - r - 1) 0)
      (min ((pyReadlines content).length : Int) (t + r))).length with hklt | hkge
  · rw [hval, mkCtxLine_take4, if_neg (by omega)]
    decide
  · exfalso
    have hPeq : (splitNlC ((pySlice (pyReadlines content) (max (t - r - 1) 0)
        (min ((pyReadlines content).length : Int) (t + r))).map
          String.data).flatten).length =
        (pySlice (pyReadlines content) (max (t - r - 1) 0)
          (min ((pyReadlines content).length : Int) (t + r))).length + 1 := by
      omega
    have hlast := hparts.2 hPeq
    have hplast : (strSplitNl (strJoin (pySlice (pyReadlines content)
        (max (t - r - 1) 0)
        (min ((pyReadlines content).length : Int) (t + r))))).getLast? =
        some "" := by
      rw [hsplit, List.getLast?_map, hlast]
      rfl
    have hline : line = "" := by
      rw [List.getLast?_eq_get? _, hsplit, List.length_map, hPeq] at hplast
      rw [hsplit] at hget
      simp only [Nat.add_sub_cancel] at hplast
      have hkk : k = (pySlice (pyReadlines content) (max (t - r - 1) 0)
          (min ((pyReadlines content).length : Int) (t + r))).length := by
        omega
      rw [hkk] at hget
      rw [hget] at hplast
      exact Option.some_inj.mp hplast
    rcases hcond with hlt | hne
    · rw [hsplit, List.length_map] at hlt
      omega
    · exact hne hline

/-- C5 witness: a finding on line 5 of a one line file gets an empty
issue line and a context block with no marker line. -/
theorem c5_witness :
    (fsW1 "w.py" = .ok "x\n" ∧ ((pyReadlines "x\n").length : Int) < 5) ∧
    (∃ c, getFileContext fsW1 "w.py" 5 2 = .ok c ∧ c.issueLine = "" ∧
      ∀ s ∈ renderContextLines c.startLine 5 c.context,
        strTake s 4 ≠ ">>> ") :=
  ⟨⟨rfl, by decide⟩,
    c5_no_marker_beyond_eof fsW1 "w.py" "x\n" 5 2 rfl (by decide)⟩

theorem strStarts_false_of (lit u pre : String) (n : Nat)
    (hl : n ≤ lit.data.length) (hp : n ≤ pre.data.length)
    (hne : strTake lit n ≠ strTake pre n) :
    strStarts (lit ++ u) pre = false := by
  cases hsb : strStarts (lit ++ u) pre
  · rfl
  · exfalso
    apply hne
    have hsb2 : pre.data.isPrefixOf (lit.data ++ u.data) = true := hsb
    obtain ⟨t2, ht⟩ := List.isPrefixOf_iff_prefix.mp hsb2
    have h1 := congrArg (List.take n) ht
    rw [List.take_append_of_le_length hp, List.take_append_of_le_length hl] at h1
    unfold strTake
    rw [h1]

theorem mkCtxLine_no_issue_head (st t : Int) (i : Nat) (line : String) :
    strStarts (mkCtxLine st t i line) "ISSUE #" = false := by
  unfold mkCtxLine
  simp only [String.append_assoc]
  by_cases h : st + (i : Int) = t
  · rw [if_pos h]
    exact strStarts_false_of _ _ _ 1 (by decide) (by decide) (by decide)
  · rw [if_neg h]
    exact strStarts_false_of _ _ _ 1 (by decide) (by decide) (by decide)

theorem renderContext_no_issue_head (st t : Int) (ctx : String) :
    ∀ s ∈ renderContextLines st t ctx, strStarts s "ISSUE #" = false := by
  intro s hs
  obtain ⟨k, line, _, _, hval⟩ := renderLoop_mem st t (strSplitNl ctx) 0 s hs
  rw [hval]
  exact mkCtxLine_no_issue_head st t (0 + k) line

theorem metaFile_no_context_head (idx : Nat) (i : Issue) :
    ∀ l ∈ issueMetaFile idx i, strStarts l "Context: " = false := by
  intro l hl
  simp only [issueMetaFile, List.mem_cons, List.not_mem_nil, or_false] at hl
  rcases hl with rfl | rfl | rfl | rfl | rfl | rfl | rfl
  · simp only [String.append_assoc]
    exact strStarts_false_of _ _ _ 1 (by decide) (by decide) (by decide)
  · decide
  · exact strStarts_false_of _ _ _ 1 (by decide) (by decide) (by decide)
  · exact strStarts_false_of _ _ _ 1 (by decide) (by decide) (by decide)
  · exact strStarts_false_of _ _ _ 1 (by decide) (by decide) (by decide)
  · exact strStarts_false_of _ _ _ 1 (by decide) (by decide) (by decide)
  · decide

/-- C7 (amended): when context extraction fails for a finding, the full
report puts the one-line notice `Context: <error>` in place of the
context section of that finding's block, while the per-file report
omits the context section silently, its block carrying no line led by
`Context: `; and the full report is always the independent concatenation
of all per-finding blocks, so one finding's failure leaves every other
block unchanged. -/
theorem c7_error_notice_divergence (fs : FS) (data : CoverityData)
    (idx : Nat) (i : Issue) (fp : String) :
    (∀ e, getFileContext fs (issueFile i) (issueLine i) 5 = .error e →
      issueBlockFull fs idx i =
        issueMetaFull idx i ++ ["Context: " ++ e] ++ ["", eq80, ""] ∧
      strStarts ("Context: " ++ e) "Context: " = true) ∧
    (∀ e, getFileContext fs fp (issueLine i) 3 = .error e →
      issueBlockFile fs fp idx i = issueMetaFile idx i ++ ["", eq80, ""] ∧
      ∀ l ∈ issueBlockFile fs fp idx i, strStarts l "Context: " = false) ∧
    (¬ data.issues.isEmpty = true →
      fixCoverityIssuesData fs data =
        joinNl (headerFull data ++
          ((List.enumFrom 1 data.issues).map
            (fun p => issueBlockFull fs p.1 p.2)).flatten ++ footerLines)) := by
  refine ⟨?_, ?_, ?_⟩
  · intro e he
    unfold issueBlockFull
    rw [he]
    exact ⟨rfl, strStarts_append_of _ _ _ (by decide)⟩
  · intro e he
    have hblock : issueBlockFile fs fp idx i =
        issueMetaFile idx i ++ ["", eq80, ""] := by
      unfold issueBlockFile
      rw [he]
      simp
    refine ⟨hblock, ?_⟩
    rw [hblock]
    intro l hl
    rcases List.mem_append.mp hl with hm | hm
    · exact metaFile_no_context_head idx i l hm
    · simp only [List.mem_cons, List.not_mem_nil, or_false] at hm
      rcases hm with rfl | rfl | rfl <;> decide
  · intro hne
    unfold fixCoverityIssuesData reportLinesFull
    rw [if_neg hne]

/-- C7 counterexample: with `w.py` missing, the per-file report lines
for the single finding carry the extraction error nowhere (no error
notice at all), while the full-report block carries it on exactly one
line; the claim that both variants emit a notice is false. -/
theorem c7_counterexample :
    getFileContext fsNone "w.py" 1 3 = .error "File w.py not found" ∧
    (∀ l ∈ reportLinesFile fsNone "w.py" dataW,
      strContains l "File w.py not found" = false) ∧
    (issueBlockFull fsNone 1 issueW).countP
      (fun l => strContains l "File w.py not found") = 1 := by
  refine ⟨rfl, by decide, by decide⟩

/-- C7 witness: the amended claim evaluated on the one-finding document
whose referenced file is missing. -/
theorem c7_witness :
    (getFileContext fsNone (issueFile issueW) (issueLine issueW) 5 =
      .error "File w.py not found") ∧
    (getFileContext fsNone "w.py" (issueLine issueW) 3 =
      .error "File w.py not found") ∧
    (¬ dataW.issues.isEmpty = true) ∧
    (issueBlockFull fsNone 1 issueW =
      issueMetaFull 1 issueW ++ ["Context: " ++ "File w.py not found"] ++
        ["", eq80, ""] ∧
     strStarts ("Context: " ++ "File w.py not found") "Context: " = true) ∧
    (issueBlockFile fsNone "w.py" 1 issueW =
      issueMetaFile 1 issueW ++ ["", eq80, ""] ∧
     ∀ l ∈ issueBlockFile fsNone "w.py" 1 issueW,
       strStarts l "Context: " = false) ∧
    fixCoverityIssuesData fsNone dataW =
      joinNl (headerFull dataW ++
        ((List.enumFrom 1 dataW.issues).map
          (fun p => issueBlockFull fsNone p.1 p.2)).flatten ++ footerLines) := by
  have h := c7_error_notice_divergence fsNone dataW 1 issueW "w.py"
  exact ⟨rfl, rfl, by decide, h.1 _ rfl, h.2.1 _ rfl, h.2.2 (by decide)⟩

theorem filter_flatten_eq {α : Type} (p : α → Bool) :
    ∀ l : List (List α), l.flatten.filter p = (l.map (List.filter p)).flatten := by
  intro l
  induction l with
  | nil => rfl
  | cons a rest ih => simp [List.flatten_cons, List.filter_append, ih]

theorem flatten_map_singleton {α β : Type} (f : α → β) :
    ∀ l : List α, (l.map (fun x => [f x])).flatten = l.map f := by
  intro l
  induction l with
  | nil => rfl
  | cons a rest ih => simp [List.flatten_cons, ih]

theorem blockFile_filter_title (fs : FS) (fp : String) (k : Nat) (i : Issue) :
    (issueBlockFile fs fp k i).filter (fun l => strStarts l "ISSUE #") =
      ["ISSUE #" ++ toString k ++ ": " ++ issueChecker i ++ " (Line " ++
        toString (issueLine i) ++ ")"] := by
  have htitle : strStarts ("ISSUE #" ++ toString k ++ ": " ++ issueChecker i ++
      " (Line " ++ toString (issueLine i) ++ ")") "ISSUE #" = true := by
    simp only [String.append_assoc]
    exact strStarts_append_of _ _ _ (by decide)
  have hfn : strStarts ("Function: " ++ issueFunction i) "ISSUE #" = false :=
    strStarts_false_of _ _ _ 1 (by decide) (by decide) (by decide)
  have hsev : strStarts ("Severity: " ++ issueSeverity i) "ISSUE #" = false :=
    strStarts_false_of _ _ _ 1 (by decide) (by decide) (by decide)
  have hdesc : strStarts ("Description: " ++ issueDescription i) "ISSUE #"
      = false :=
    strStarts_false_of _ _ _ 1 (by decide) (by decide) (by decide)
  have hrec : strStarts ("Recommendation: " ++ issueRecommendation i) "ISSUE #"
      = false :=
    strStarts_false_of _ _ _ 1 (by decide) (by decide) (by decide)
  have hd80 : strStarts dash80 "ISSUE #" = false := by decide
  have he80 : strStarts eq80 "ISSUE #" = false := by decide
  have hemp : strStarts "" "ISSUE #" = false := by decide
  unfold issueBlockFile issueMetaFile
  rw [List.filter_append, List.filter_append]
  rcases hctx : getFileContext fs fp (issueLine i) 3 with e | c
  · simp [List.filter_cons, htitle, hfn, hsev, hdesc, hrec, hd80, he80, hemp]
  · have hhead : strStarts ("Code Context (Lines " ++ toString c.startLine ++
        "-" ++ toString c.endLine ++ "):") "ISSUE #" = false := by
      simp only [String.append_assoc]
      exact strStarts_false_of _ _ _ 1 (by decide) (by decide) (by decide)
    have hrender : (renderContextLines c.startLine (issueLine i)
        c.context).filter (fun l => strStarts l "ISSUE #") = [] :=
      List.filter_eq_nil_iff.mpr (fun a ha => by
        rw [renderContext_no_issue_head c.startLine (issueLine i) c.context a ha]
        decide)
    simp [List.filter_cons, htitle, hfn, hsev, hdesc, hrec, hhead, hrender,
      hd80, he80, hemp]

/-- C8 (confirmed): the per-file report restricts to exactly the
findings whose `file` field equals the requested path by exact string
comparison; its header count is the number of those findings, its
numbered block titles are exactly the titles of those findings in
order, and when none matches it returns an explanatory message that is
not an error string. -/
theorem c8_per_file_filter (fs : FS) (fp : String) (data : CoverityData) :
    (issuesForFile fp data = [] →
      getIssueByFileData fs fp data =
        "No Coverity issues found in file: " ++ fp ∧
      strStarts ("No Coverity issues found in file: " ++ fp) "Error"
        = false) ∧
    (issuesForFile fp data ≠ [] →
      getIssueByFileData fs fp data = joinNl (reportLinesFile fs fp data) ∧
      (reportLinesFile fs fp data).get? 2 =
        some ("Total Issues in File: " ++
          toString (issuesForFile fp data).length) ∧
      (reportLinesFile fs fp data).filter (fun l => strStarts l "ISSUE #") =
        (List.enumFrom 1 (issuesForFile fp data)).map
          (fun p => "ISSUE #" ++ toString p.1 ++ ": " ++ issueChecker p.2 ++
            " (Line " ++ toString (issueLine p.2) ++ ")")) := by
  constructor
  · intro h
    unfold getIssueByFileData
    rw [if_pos (List.isEmpty_iff.mpr h)]
    exact ⟨rfl, strStarts_false_of _ _ _ 1 (by decide) (by decide) (by decide)⟩
  · intro h
    refine ⟨?_, rfl, ?_⟩
    · unfold getIssueByFileData
      rw [if_neg (by simpa [List.isEmpty_iff] using h)]
    · have hcov : strStarts ("COVERITY ISSUES IN " ++ fp) "ISSUE #" = false :=
        strStarts_false_of _ _ _ 1 (by decide) (by decide) (by decide)
      have htot : strStarts ("Total Issues in File: " ++
          toString (issuesForFile fp data).length) "ISSUE #" = false :=
        strStarts_false_of _ _ _ 1 (by decide) (by decide) (by decide)
      unfold reportLinesFile
      rw [List.filter_append]
      rw [show List.filter (fun l => strStarts l "ISSUE #")
          ["COVERITY ISSUES IN " ++ fp, eq80, "Total Issues in File: " ++
            toString (issuesForFile fp data).length, ""] = [] by
        simp [List.filter_cons, hcov, htot,
          show strStarts eq80 "ISSUE #" = false by decide,
          show strStarts "" "ISSUE #" = false by decide]]
      rw [filter_flatten_eq, List.map_map]
      rw [List.map_congr_left (fun q _ => blockFile_filter_title fs fp q.1 q.2)]
      rw [flatten_map_singleton]
      rfl

/-- C8 witness: the mixed document filtered to `w.py` keeps exactly its
two `w.py` findings, with matching header count and block titles. -/
theorem c8_witness :
    issuesForFile "w.py" dataC8 ≠ [] ∧
    (getIssueByFileData fsW1 "w.py" dataC8 =
        joinNl (reportLinesFile fsW1 "w.py" dataC8) ∧
      (reportLinesFile fsW1 "w.py" dataC8).get? 2 =
        some ("Total Issues in File: " ++
          toString (issuesForFile "w.py" dataC8).length) ∧
      (reportLinesFile fsW1 "w.py" dataC8).filter
          (fun l => strStarts l "ISSUE #") =
        (List.enumFrom 1 (issuesForFile "w.py" dataC8)).map
          (fun p => "ISSUE #" ++ toString p.1 ++ ": " ++ issueChecker p.2 ++
            " (Line " ++ toString (issueLine p.2) ++ ")")) :=
  ⟨by decide, (c8_per_file_filter fsW1 "w.py" dataC8).2 (by decide)⟩

/-- C10 witness: a malformed findings file makes both entry points
return an `Error`-led string. -/
theorem c10_witness :
    fsJunk "c.json" = .ok "notjson" ∧ parseBad "notjson" = .error "bad" ∧
    (strStarts (fixCoverityIssues parseBad fsJunk "c.json") "Error" = true ∧
      strStarts (getIssueByFile parseBad fsJunk "a.py" "c.json") "Error"
        = true) :=
  ⟨rfl, rfl,
    (c10_failures_return_error_strings parseBad fsJunk "c.json" "a.py").2.2
      "notjson" "bad" rfl rfl⟩

/-- C1 witness: the amended claim evaluated on the empty document. -/
theorem c1_witness :
    dataEmpty.issues = [] ∧
    (fixCoverityIssuesData fsNone dataEmpty =
        "No Coverity issues found in the JSON file." ∧
      strContains (fixCoverityIssuesData fsNone dataEmpty) "Total Issues: 0"
        = false ∧
      strContains (fixCoverityIssuesData fsNone dataEmpty) "ISSUE #" = false) :=
  ⟨rfl, c1_empty_issues_message fsNone dataEmpty rfl⟩

end CoverityReport
